import Mathlib

/-!
Verification of the contract-instance registry and reactive refresh engine
of the barnbridge-frontend dashboard, together with two view-level
computations (the Simulate form's liquidity split and the TokenAmount
input's balance warning).

The registry (`useContractFactory`'s `getOrCreateContract` / `getContract`),
the reload signal (`useReload`) and the event channel (`Web3Contract`'s
UPDATE_DATA pub/sub) are exercised by the views in the repository but their
implementations live outside the vendored sources; those parts are modelled
from the specification, as marked on each definition.  The Simulate-view
arithmetic and the TokenAmount component are translated directly from the
sources.
-/

namespace Registry0

/-- Modelled from the spec: the BindingRegistry (`useContractFactory` is not
in the vendored sources).  `entries` maps an address to the identifier of
the binding instance cached for it; `nextId` is the identifier the next
factory invocation would construct, so it also counts how many bindings
have been constructed so far. -/
structure Registry where
  entries : List (String × Nat)
  nextId : Nat
  deriving DecidableEq, Repr

/-- Modelled from the spec: association-list lookup used by the registry and
by a binding's field cache. -/
def lookupA {α : Type} : List (String × α) → String → Option α
  | [], _ => none
  | (b, i) :: rest, a => if b = a then some i else lookupA rest a

/-- Modelled from the spec: `get(address)` — lookup without construction. -/
def Registry.get (r : Registry) (a : String) : Option Nat :=
  lookupA r.entries a

/-- Modelled from the spec: a factory failure (construction error). -/
inductive ConstructionError where
  | factoryFailed
  deriving DecidableEq, Repr

/-- Modelled from the spec: `getOrCreate(address, factory)`.  If a binding
for the address exists it is returned and the factory is not invoked;
otherwise the factory is invoked exactly once (`fail` tells whether this
invocation fails).  On success the fresh binding is stored; on failure
nothing is cached.  The third component counts factory invocations made by
this call. -/
def Registry.getOrCreate (r : Registry) (a : String) (fail : Bool) :
    Registry × Except ConstructionError Nat × Nat :=
  match r.get a with
  | some b => (r, .ok b, 0)
  | none =>
    if fail then (r, .error .factoryFailed, 1)
    else ({ entries := (a, r.nextId) :: r.entries, nextId := r.nextId + 1 },
          .ok r.nextId, 1)

/-- A sequence of `n` successful-factory `getOrCreate` calls for the same
address, collecting every caller's result and the total number of factory
invocations. -/
def runSeq (r : Registry) (a : String) : Nat → Registry × List (Except ConstructionError Nat) × Nat
  | 0 => (r, [], 0)
  | Nat.succ n =>
    let out := r.getOrCreate a false
    let rest := runSeq out.1 a n
    (rest.1, out.2.1 :: rest.2.1, out.2.2 + rest.2.2)

lemma lookupA_insert (es : List (String × Nat)) (a : String) (i : Nat) :
    lookupA ((a, i) :: es) a = some i := by
  simp [lookupA]

lemma getOrCreate_hit {r : Registry} {a : String} {b : Nat} (h : r.get a = some b)
    (fail : Bool) : r.getOrCreate a fail = (r, .ok b, 0) := by
  simp [Registry.getOrCreate, h]

lemma getOrCreate_fresh {r : Registry} {a : String} (h : r.get a = none) :
    r.getOrCreate a false =
      ({ entries := (a, r.nextId) :: r.entries, nextId := r.nextId + 1 },
       .ok r.nextId, 1) := by
  simp [Registry.getOrCreate, h]

lemma get_after_fresh {r : Registry} {a : String} (h : r.get a = none) :
    ((r.getOrCreate a false).1).get a = some r.nextId := by
  rw [getOrCreate_fresh h]
  simpa [Registry.get] using lookupA_insert r.entries a r.nextId

lemma runSeq_stable {r : Registry} {a : String} {b : Nat} (h : r.get a = some b) :
    ∀ n, runSeq r a n = (r, List.replicate n (Except.ok b), 0) := by
  intro n
  induction n with
  | zero => simp [runSeq]
  | succ m ih =>
    simp only [runSeq, getOrCreate_hit h false, ih, List.replicate_succ]

end Registry0

namespace Binding0

/-- Field names of a remote binding's cache. -/
abbrev FieldName := String

/-- Cached field values (dynamic contract values, abstracted). -/
abbrev Value := Int

/-- Modelled from the spec: a RemoteBinding (`Web3Contract` subclasses such
as `SYProviderContract` are not in the vendored sources).  It owns the
cached field values for one contract address. -/
structure RemoteBinding where
  cachedFields : List (FieldName × Value)
  deriving DecidableEq, Repr

/-- Modelled from the spec: `read(fieldName)` — pure cache read. -/
def RemoteBinding.read (b : RemoteBinding) (f : FieldName) : Option Value :=
  Registry0.lookupA b.cachedFields f

/-- Modelled from the spec: the error surfaced by a failed fetch; a decode
failure is a FetchError subtype. -/
inductive FetchError where
  | network
  | decode
  deriving DecidableEq, Repr

/-- Modelled from the spec: the outcome of the network read for one fetch.
`netOk` is whether the remote call itself succeeded; `fields` pairs every
requested field with its decoded value, `none` marking a decode failure of
that field. -/
structure FetchResponse where
  netOk : Bool
  fields : List (FieldName × Option Value)
  deriving DecidableEq, Repr

/-- Modelled from the spec: decoding of the whole response; it succeeds only
when every requested field decodes. -/
def decodeAll : List (FieldName × Option Value) → Option (List (FieldName × Value))
  | [] => some []
  | (f, some v) :: rest => (decodeAll rest).map (fun l => (f, v) :: l)
  | (_, none) :: _ => none

/-- Replace the cached entry for field `f` with `v`, keeping other fields. -/
def setField : List (FieldName × Value) → FieldName → Value → List (FieldName × Value)
  | [], f, v => [(f, v)]
  | (g, w) :: rest, f, v =>
    if g = f then (f, v) :: rest else (g, w) :: setField rest f v

/-- Write every decoded field of a successful fetch into the cache. -/
def writeFields (cache : List (FieldName × Value)) :
    List (FieldName × Value) → List (FieldName × Value)
  | [] => cache
  | (f, v) :: rest => writeFields (setField cache f v) rest

/-- Modelled from the spec: `fetch(fieldSet)`.  Only when the network call
succeeds and every field decodes are the corresponding cache entries
replaced and an UPDATE_DATA emitted (the `Bool` component); otherwise the
cache is left untouched, no event is emitted and a `FetchError` is
returned. -/
def RemoteBinding.fetch (b : RemoteBinding) (resp : FetchResponse) :
    RemoteBinding × Except FetchError Unit × Bool :=
  if resp.netOk then
    match decodeAll resp.fields with
    | some vals => (⟨writeFields b.cachedFields vals⟩, .ok (), true)
    | none => (b, .error .decode, false)
  else (b, .error .network, false)

lemma lookupA_setField_self (cache : List (FieldName × Value)) (f : FieldName) (v : Value) :
    Registry0.lookupA (setField cache f v) f = some v := by
  induction cache with
  | nil => simp [setField, Registry0.lookupA]
  | cons p rest ih =>
    obtain ⟨g, w⟩ := p
    by_cases hg : g = f
    · simp [setField, hg, Registry0.lookupA]
    · simp [setField, hg, Registry0.lookupA, ih]

lemma lookupA_setField_other (cache : List (FieldName × Value)) {f g : FieldName}
    (v : Value) (hne : f ≠ g) :
    Registry0.lookupA (setField cache f v) g = Registry0.lookupA cache g := by
  induction cache with
  | nil => simp [setField, Registry0.lookupA, hne]
  | cons p rest ih =>
    obtain ⟨a, w⟩ := p
    by_cases ha : a = f
    · subst ha
      simp [setField, Registry0.lookupA, hne]
    · simp [setField, ha, Registry0.lookupA, ih]

lemma lookupA_writeFields_notMem (cache : List (FieldName × Value))
    (vals : List (FieldName × Value)) {g : FieldName}
    (hg : g ∉ vals.map Prod.fst) :
    Registry0.lookupA (writeFields cache vals) g = Registry0.lookupA cache g := by
  induction vals generalizing cache with
  | nil => simp [writeFields]
  | cons p rest ih =>
    obtain ⟨f, v⟩ := p
    simp only [List.map_cons, List.mem_cons, not_or] at hg
    rw [show writeFields cache ((f, v) :: rest) = writeFields (setField cache f v) rest
          from rfl,
        ih _ hg.2, lookupA_setField_other cache v (Ne.symm hg.1)]

lemma lookupA_writeFields_mem (cache : List (FieldName × Value))
    (vals : List (FieldName × Value)) {f : FieldName} {v : Value}
    (hnd : (vals.map Prod.fst).Nodup) (hmem : (f, v) ∈ vals) :
    Registry0.lookupA (writeFields cache vals) f = some v := by
  induction vals generalizing cache with
  | nil => simp at hmem
  | cons p rest ih =>
    obtain ⟨a, w⟩ := p
    simp only [List.map_cons, List.nodup_cons] at hnd
    rw [show writeFields cache ((a, w) :: rest) = writeFields (setField cache a w) rest
          from rfl]
    rcases List.mem_cons.mp hmem with heq | htail
    · obtain ⟨rfl, rfl⟩ := Prod.mk.inj heq
      rw [lookupA_writeFields_notMem _ _ hnd.1, lookupA_setField_self]
    · exact ih (setField cache a w) hnd.2 htail

lemma decodeAll_keys {fields : List (FieldName × Option Value)}
    {vals : List (FieldName × Value)} (h : decodeAll fields = some vals) :
    vals.map Prod.fst = fields.map Prod.fst := by
  induction fields generalizing vals with
  | nil =>
    simp only [decodeAll, Option.some.injEq] at h
    simp [← h]
  | cons p rest ih =>
    obtain ⟨f, ov⟩ := p
    cases ov with
    | none => simp [decodeAll] at h
    | some v =>
      simp only [decodeAll, Option.map_eq_some'] at h
      obtain ⟨l, hl, rfl⟩ := h
      simp [ih hl]

lemma decodeAll_fail {fields : List (FieldName × Option Value)} {f : FieldName}
    (h : (f, none) ∈ fields) : decodeAll fields = none := by
  induction fields with
  | nil => simp at h
  | cons p rest ih =>
    obtain ⟨a, ov⟩ := p
    cases ov with
    | none => simp [decodeAll]
    | some v =>
      rcases List.mem_cons.mp h with heq | htail
      · exact absurd (Prod.mk.inj heq).2 (by simp)
      · simp [decodeAll, ih htail]

end Binding0

namespace Channel0

open Binding0

/-- Modelled from the spec: a binding's EventChannel (`Web3Contract`'s
UPDATE_DATA pub/sub is not in the vendored sources).  `subs` holds the
subscriber handles in subscription order; `nextHandle` is the handle the
next `subscribe` hands out, so every live handle is below it. -/
structure Channel where
  subs : List Nat
  nextHandle : Nat
  deriving DecidableEq, Repr

/-- Modelled from the spec: `subscribe(handler)` appends a fresh handle. -/
def Channel.subscribe (c : Channel) : Channel × Nat :=
  ({ subs := c.subs ++ [c.nextHandle], nextHandle := c.nextHandle + 1 }, c.nextHandle)

/-- Modelled from the spec: `unsubscribe(handle)` removes the handler;
removing an absent or never-created handle leaves the channel unchanged. -/
def Channel.unsubscribe (c : Channel) (h : Nat) : Channel :=
  { c with subs := c.subs.filter (fun x => x ≠ h) }

/-- One handler invocation; `raises` tells which handlers throw. -/
def invokeOne (raises : Nat → Bool) (h : Nat) : Except Unit Unit :=
  if raises h then .error () else .ok ()

/-- Modelled from the spec: the emit loop walks the subscribers in
subscription order, invoking each handler and swallowing any exception it
raises before moving to the next one.  It returns the handles whose
handlers were invoked, in invocation order. -/
def emitLoop (raises : Nat → Bool) : List Nat → List Nat
  | [] => []
  | h :: rest =>
    match invokeOne raises h with
    | .ok _ => h :: emitLoop raises rest
    | .error _ => h :: emitLoop raises rest

lemma emitLoop_eq_subs (raises : Nat → Bool) (l : List Nat) :
    emitLoop raises l = l := by
  induction l with
  | nil => rfl
  | cons h rest ih =>
    rw [emitLoop]
    cases invokeOne raises h <;> simp [ih]

lemma unsubscribe_notMem (c : Channel) (h : Nat) :
    h ∉ (c.unsubscribe h).subs := by
  intro hmem
  have := List.of_mem_filter hmem
  simp at this

lemma unsubscribe_subset {c : Channel} {h x : Nat}
    (hx : x ∈ (c.unsubscribe h).subs) : x ∈ c.subs :=
  List.mem_of_mem_filter hx

lemma unsubscribe_nextHandle (c : Channel) (h : Nat) :
    (c.unsubscribe h).nextHandle = c.nextHandle := rfl

end Channel0

namespace Sys0

open Binding0 Channel0

/-- Modelled from the spec: the state a view-facing binding system carries —
the binding's event channel, the binding's cached fields and every
subscriber's ReloadSignal version (`useReload` is not in the vendored
sources; its handler is exactly "increment my version"). -/
structure SysState where
  chan : Channel
  binding : RemoteBinding
  versions : Nat → Nat

/-- The initial system: no subscribers, empty cache, all versions 0. -/
def initSys : SysState :=
  { chan := { subs := [], nextHandle := 0 }
    binding := ⟨[]⟩
    versions := fun _ => 0 }

/-- Operations a run of the system interleaves: a view subscribing, a view
unsubscribing a handle, and a fetch completing with some network
response. -/
inductive Op where
  | sub
  | unsub (h : Nat)
  | doFetch (resp : FetchResponse)

/-- Modelled from the spec: one step of the system.  A completed fetch
updates the binding; when (and only when) it emits UPDATE_DATA, every
currently subscribed handle's ReloadSignal version is incremented by
one. -/
def stepSys (s : SysState) : Op → SysState
  | .sub => { s with chan := (s.chan.subscribe).1 }
  | .unsub h => { s with chan := s.chan.unsubscribe h }
  | .doFetch resp =>
    let out := s.binding.fetch resp
    if out.2.2 then
      { chan := s.chan
        binding := out.1
        versions := fun h => if h ∈ s.chan.subs then s.versions h + 1 else s.versions h }
    else { s with binding := out.1 }

/-- Run a list of operations from a state. -/
def runTrace (s : SysState) : List Op → SysState
  | [] => s
  | op :: rest => runTrace (stepSys s op) rest

/-- The handles whose handlers one operation invokes: an emitting fetch
runs the emit loop over the current subscribers; nothing else invokes a
handler. -/
def invokedBy (raises : Nat → Bool) (s : SysState) : Op → List Nat
  | .doFetch resp => if (s.binding.fetch resp).2.2 then emitLoop raises s.chan.subs else []
  | _ => []

/-- All handles invoked over a run, in order. -/
def invokedTrace (raises : Nat → Bool) (s : SysState) : List Op → List Nat
  | [] => []
  | op :: rest => invokedBy raises s op ++ invokedTrace raises (stepSys s op) rest

/-- The invariant carried through a run for claim C6: the removed handle is
not subscribed, it is an already-allocated handle, and every subscribed
handle is allocated. -/
def Away (h : Nat) (s : SysState) : Prop :=
  h ∉ s.chan.subs ∧ h < s.chan.nextHandle ∧ ∀ x ∈ s.chan.subs, x < s.chan.nextHandle

lemma away_step {h : Nat} {s : SysState} (ha : Away h s) (op : Op) :
    Away h (stepSys s op) := by
  obtain ⟨h1, h2, h3⟩ := ha
  cases op with
  | sub =>
    refine ⟨?_, ?_, ?_⟩
    · intro hmem
      simp only [stepSys, Channel.subscribe, List.mem_append, List.mem_singleton] at hmem
      rcases hmem with hmem | hmem
      · exact h1 hmem
      · exact absurd hmem (Nat.ne_of_lt h2)
    · exact Nat.lt_succ_of_lt h2
    · intro x hx
      simp only [stepSys, Channel.subscribe, List.mem_append, List.mem_singleton] at hx
      rcases hx with hx | hx
      · exact Nat.lt_succ_of_lt (h3 x hx)
      · simp [stepSys, Channel.subscribe, hx]
  | unsub g =>
    exact ⟨fun hmem => h1 (unsubscribe_subset hmem), h2,
      fun x hx => h3 x (unsubscribe_subset hx)⟩
  | doFetch resp =>
    by_cases he : (s.binding.fetch resp).2.2 <;>
      simp only [stepSys] <;> simp [he] <;> exact ⟨h1, h2, h3⟩

lemma away_not_invoked {h : Nat} {s : SysState} (ha : Away h s)
    (raises : Nat → Bool) (op : Op) : h ∉ invokedBy raises s op := by
  cases op with
  | sub => simp [invokedBy]
  | unsub g => simp [invokedBy]
  | doFetch resp =>
    simp only [invokedBy]
    by_cases he : (s.binding.fetch resp).2.2
    · simp [he, emitLoop_eq_subs]
      exact ha.1
    · simp [he]

lemma away_not_invokedTrace {h : Nat} {s : SysState} (ha : Away h s)
    (raises : Nat → Bool) (ops : List Op) : h ∉ invokedTrace raises s ops := by
  induction ops generalizing s with
  | nil => simp [invokedTrace]
  | cons op rest ih =>
    simp only [invokedTrace, List.mem_append, not_or]
    exact ⟨away_not_invoked ha raises op, ih (away_step ha op)⟩

lemma runTrace_binding_congr {s t : SysState} (hb : s.binding = t.binding)
    (ops : List Op) : (runTrace s ops).binding = (runTrace t ops).binding := by
  induction ops generalizing s t with
  | nil => simpa [runTrace] using hb
  | cons op rest ih =>
    refine ih ?_
    cases op with
    | sub => simpa [stepSys] using hb
    | unsub g => simpa [stepSys] using hb
    | doFetch resp =>
      simp only [stepSys, hb]
      by_cases he : (t.binding.fetch resp).2.2 <;> simp [he]

lemma versions_mono_step (s : SysState) (op : Op) (h : Nat) :
    s.versions h ≤ (stepSys s op).versions h := by
  cases op with
  | sub => simp [stepSys]
  | unsub g => simp [stepSys]
  | doFetch resp =>
    simp only [stepSys]
    by_cases he : (s.binding.fetch resp).2.2
    · simp only [he, if_true]
      by_cases hm : h ∈ s.chan.subs <;> simp [hm]
    · simp [he]

lemma versions_mono_trace (s : SysState) (ops : List Op) (h : Nat) :
    s.versions h ≤ (runTrace s ops).versions h := by
  induction ops generalizing s with
  | nil => simp [runTrace]
  | cons op rest ih =>
    exact le_trans (versions_mono_step s op h) (ih (stepSys s op))

end Sys0

namespace Simulate0

/-- Modelled from the spec: bignumber.js division rounds the quotient to 20
decimal places (the library's default DECIMAL_PLACES) with ROUND_HALF_UP,
which rounds a tie away from zero. -/
def roundHalfUp (x : ℚ) : ℤ :=
  if 0 ≤ x then ⌊x + 1 / 2⌋ else -⌊-x + 1 / 2⌋

/-- Modelled from the spec: `BigNumber.div`, rounding to 20 decimal
places. -/
def bnDiv (a b : ℚ) : ℚ :=
  (roundHalfUp (a / b * 10 ^ 20) : ℚ) / 10 ^ 20

/-- Modelled from the spec: `scaleBy(decimals)` (web3/utils, not in the
vendored sources) multiplies a value by `10 ^ decimals`; addition,
subtraction and multiplication in bignumber.js are exact. -/
def scaleBy (x : ℚ) (d : ℕ) : ℚ := x * 10 ^ d

/-- `SCALE_DECIMALS` of the Simulate view. -/
def SCALE_DECIMALS : ℕ := 18

/-- `onSubmit` of the Simulate view:
`BigNumber.from(values.juniorDominance)?.div(100).scaleBy(SCALE_DECIMALS)`,
applied to an input that parsed to the rational `d`. -/
def juniorLiquidity (d : ℚ) : ℚ := scaleBy (bnDiv d 100) SCALE_DECIMALS

/-- `onSubmit` of the Simulate view:
`juniorLiquidity?.minus(new BigNumber(1).scaleBy(SCALE_DECIMALS)!).multipliedBy(-1)`. -/
def seniorLiquidity (j : ℚ) : ℚ := (j - scaleBy 1 SCALE_DECIMALS) * (-1)

lemma roundHalfUp_intCast (k : ℤ) : roundHalfUp (k : ℚ) = k := by
  have hhalf : ⌊(1 / 2 : ℚ)⌋ = 0 := by
    rw [Int.floor_eq_zero_iff]
    constructor <;> norm_num
  unfold roundHalfUp
  by_cases hk : 0 ≤ (k : ℚ)
  · rw [if_pos hk, Int.floor_int_add, hhalf, add_zero]
  · rw [if_neg hk, ← Int.cast_neg, Int.floor_int_add, hhalf, add_zero, neg_neg]

lemma bnDiv_exact_of_scale17 (n : ℤ) :
    bnDiv ((n : ℚ) / 10 ^ 17) 100 = (n : ℚ) / 10 ^ 17 / 100 := by
  have key : ((n : ℚ) / 10 ^ 17) / 100 * 10 ^ 20 = ((10 * n : ℤ) : ℚ) := by
    push_cast
    ring
  rw [bnDiv, key, roundHalfUp_intCast]
  push_cast
  ring

end Simulate0

namespace TokenAmount0

/-- A JavaScript number as seen by comparison operators: NaN, the two
infinities, or a finite value (floats are exact rationals). -/
inductive JsNum where
  | nan
  | posInf
  | negInf
  | num (q : ℚ)
  deriving DecidableEq

/-- The JavaScript `>` comparison on numbers: any comparison involving NaN
is false; the infinities compare as extremes. -/
def jsGt : JsNum → JsNum → Bool
  | .nan, _ => false
  | _, .nan => false
  | .posInf, .posInf => false
  | .posInf, _ => true
  | .negInf, _ => false
  | .num _, .posInf => false
  | .num _, .negInf => true
  | .num q, .num r => decide (r < q)

/-- `Number.isFinite`: true exactly on finite numbers (false on NaN, the
infinities and any non-number such as `undefined`). -/
def jsIsFinite : JsNum → Bool
  | .num _ => true
  | _ => false

/-- The props of the `TokenAmount` component that decide the warning and
the MAX button: `value` is `Number(rest.value)` (the text input coerced to
a number, possibly NaN) and `max` is the optional `max` prop, `none` when
the prop is left undefined. -/
structure TokenAmountProps where
  value : JsNum
  max : Option JsNum
  deriving DecidableEq

/-- `Number(x)` applied to the optional `max` prop: `Number(undefined)` is
NaN. -/
def numOfOpt : Option JsNum → JsNum
  | none => .nan
  | some x => x

/-- `TokenAmount` renders the insufficient-balance warning exactly when
`Number(rest.value) > Number(rest.max)` (index.tsx line 59). -/
def showsInsufficientBalance (p : TokenAmountProps) : Bool :=
  jsGt p.value (numOfOpt p.max)

/-- `TokenAmount` renders the MAX button exactly when
`Number.isFinite(rest.max)` (index.tsx line 48). -/
def showsMaxButton (p : TokenAmountProps) : Bool :=
  match p.max with
  | none => false
  | some x => jsIsFinite x

lemma jsGt_nan_right (v : JsNum) : jsGt v JsNum.nan = false := by
  cases v <;> rfl

end TokenAmount0

/-- C1: if a binding for the address already exists in the registry then
`getOrCreate` returns that existing binding without invoking the factory;
otherwise, over any sequence of `getOrCreate` calls for the same fresh
address, the factory is invoked exactly once, the result is stored, and
every caller receives the same binding. -/
theorem C1_getOrCreate_constructs_once (r : Registry0.Registry) (a : String) :
    (∀ (b : Nat) (fail : Bool), r.get a = some b →
      r.getOrCreate a fail = (r, .ok b, 0)) ∧
    (r.get a = none → ∀ n : Nat, 1 ≤ n →
      (Registry0.runSeq r a n).2.2 = 1 ∧
      (Registry0.runSeq r a n).2.1 = List.replicate n (Except.ok r.nextId)) := by
  constructor
  · intro b fail h
    exact Registry0.getOrCreate_hit h fail
  · intro h n hn
    obtain ⟨m, rfl⟩ : ∃ m, n = m + 1 := ⟨n - 1, by omega⟩
    have h1 := Registry0.get_after_fresh h
    rw [Registry0.getOrCreate_fresh h] at h1
    have h2 := Registry0.runSeq_stable h1 m
    refine ⟨?_, ?_⟩ <;>
      simp [Registry0.runSeq, Registry0.getOrCreate_fresh h, h2, List.replicate_succ]

/-- Witness for C1 at a concrete registry: a hit returns the stored binding
without construction, and two calls for a fresh address construct once and
agree. -/
theorem C1_witness :
    ((⟨[("0xAAA", 7)], 8⟩ : Registry0.Registry).getOrCreate "0xAAA" false =
      (⟨[("0xAAA", 7)], 8⟩, Except.ok 7, 0)) ∧
    (Registry0.runSeq ⟨[], 0⟩ "0xAAA" 2).2.2 = 1 ∧
    (Registry0.runSeq ⟨[], 0⟩ "0xAAA" 2).2.1 = List.replicate 2 (Except.ok 0) :=
  ⟨(C1_getOrCreate_constructs_once ⟨[("0xAAA", 7)], 8⟩ "0xAAA").1 7 false (by decide),
   (C1_getOrCreate_constructs_once ⟨[], 0⟩ "0xAAA").2 (by decide) 2 (by norm_num)⟩

/-- C2: a successful fetch replaces the cached entries for exactly the
successfully fetched fields — afterwards `read` returns the newly fetched
value for every fetched field — while every field not included in the
fetch request keeps its prior cached value; the call reports success and
an UPDATE_DATA event is emitted. -/
theorem C2_fetch_success_frame (b : Binding0.RemoteBinding)
    (resp : Binding0.FetchResponse) (vals : List (Binding0.FieldName × Binding0.Value))
    (hnet : resp.netOk = true)
    (hdec : Binding0.decodeAll resp.fields = some vals)
    (hnd : (vals.map Prod.fst).Nodup) :
    (b.fetch resp).2.1 = .ok () ∧
    (b.fetch resp).2.2 = true ∧
    (∀ f v, (f, v) ∈ vals → ((b.fetch resp).1).read f = some v) ∧
    (∀ f, f ∉ resp.fields.map Prod.fst → ((b.fetch resp).1).read f = b.read f) := by
  have hfetch : b.fetch resp =
      (⟨Binding0.writeFields b.cachedFields vals⟩, .ok (), true) := by
    simp [Binding0.RemoteBinding.fetch, hnet, hdec]
  refine ⟨by rw [hfetch], by rw [hfetch], ?_, ?_⟩
  · intro f v hmem
    rw [hfetch]
    exact Binding0.lookupA_writeFields_mem b.cachedFields vals hnd hmem
  · intro f hf
    rw [hfetch]
    have hf' : f ∉ vals.map Prod.fst := by
      rw [Binding0.decodeAll_keys hdec]
      exact hf
    exact Binding0.lookupA_writeFields_notMem b.cachedFields vals hf'

/-- Witness for C2 at a concrete binding: fetching field x as 10 updates x
and leaves the untouched field y at its prior value. -/
theorem C2_witness :
    ((⟨[("x", 1), ("y", 2)]⟩ : Binding0.RemoteBinding).fetch
        ⟨true, [("x", some 10)]⟩).2.2 = true ∧
    (((⟨[("x", 1), ("y", 2)]⟩ : Binding0.RemoteBinding).fetch
        ⟨true, [("x", some 10)]⟩).1).read "x" = some 10 ∧
    (((⟨[("x", 1), ("y", 2)]⟩ : Binding0.RemoteBinding).fetch
        ⟨true, [("x", some 10)]⟩).1).read "y" =
      (⟨[("x", 1), ("y", 2)]⟩ : Binding0.RemoteBinding).read "y" := by
  have h := C2_fetch_success_frame ⟨[("x", 1), ("y", 2)]⟩ ⟨true, [("x", some 10)]⟩
    [("x", 10)] rfl (by decide) (by decide)
  exact ⟨h.2.1, h.2.2.1 "x" 10 (by decide), h.2.2.2 "y" (by decide)⟩

/-- C3: a failed fetch — the network call failing or any requested field's
decode failing — leaves the cached fields entirely unchanged, returns a
FetchError to the caller, emits no UPDATE_DATA, and every subsequent read
returns whatever was cached before the call. -/
theorem C3_fetch_failure_frame (b : Binding0.RemoteBinding)
    (resp : Binding0.FetchResponse)
    (h : resp.netOk = false ∨ ∃ f, (f, none) ∈ resp.fields) :
    (b.fetch resp).1 = b ∧
    (∃ e, (b.fetch resp).2.1 = .error e) ∧
    (b.fetch resp).2.2 = false ∧
    (∀ f, ((b.fetch resp).1).read f = b.read f) := by
  have hfail : (b.fetch resp).1 = b ∧ (∃ e, (b.fetch resp).2.1 = .error e) ∧
      (b.fetch resp).2.2 = false := by
    rcases h with hnet | ⟨f, hf⟩
    · refine ⟨?_, ⟨.network, ?_⟩, ?_⟩ <;> simp [Binding0.RemoteBinding.fetch, hnet]
    · have hd := Binding0.decodeAll_fail hf
      cases hnet : resp.netOk
      · refine ⟨?_, ⟨.network, ?_⟩, ?_⟩ <;> simp [Binding0.RemoteBinding.fetch, hnet]
      · refine ⟨?_, ⟨.decode, ?_⟩, ?_⟩ <;> simp [Binding0.RemoteBinding.fetch, hnet, hd]
  exact ⟨hfail.1, hfail.2.1, hfail.2.2, fun f => by rw [hfail.1]⟩

/-- Witness for C3 at a concrete binding: a fetch whose only field fails to
decode returns an error, emits nothing, and the field keeps its prior
cached value. -/
theorem C3_witness :
    ((⟨[("x", 5)]⟩ : Binding0.RemoteBinding).fetch ⟨true, [("x", none)]⟩).1 =
      ⟨[("x", 5)]⟩ ∧
    (∃ e, ((⟨[("x", 5)]⟩ : Binding0.RemoteBinding).fetch
        ⟨true, [("x", none)]⟩).2.1 = .error e) ∧
    ((⟨[("x", 5)]⟩ : Binding0.RemoteBinding).fetch ⟨true, [("x", none)]⟩).2.2 = false ∧
    (((⟨[("x", 5)]⟩ : Binding0.RemoteBinding).fetch ⟨true, [("x", none)]⟩).1).read "x" =
      (⟨[("x", 5)]⟩ : Binding0.RemoteBinding).read "x" := by
  have h := C3_fetch_failure_frame ⟨[("x", 5)]⟩ ⟨true, [("x", none)]⟩
    (Or.inr ⟨"x", by decide⟩)
  exact ⟨h.1, h.2.1, h.2.2.1, h.2.2.2 "x"⟩

/-- C8: a factory failure during `getOrCreate` does not poison the
registry: for a fresh address the failing call caches nothing (the
registry is unchanged), returns the construction error to the immediate
caller, and the next `getOrCreate` call for the same address invokes the
factory again and, succeeding, stores and returns a binding. -/
theorem C8_factory_failure_not_cached (r : Registry0.Registry) (a : String)
    (h : r.get a = none) :
    r.getOrCreate a true = (r, .error .factoryFailed, 1) ∧
    (r.getOrCreate a false).2.1 = .ok r.nextId ∧
    (r.getOrCreate a false).2.2 = 1 ∧
    ((r.getOrCreate a false).1).get a = some r.nextId := by
  refine ⟨by simp [Registry0.Registry.getOrCreate, h], ?_, ?_,
    Registry0.get_after_fresh h⟩ <;> rw [Registry0.getOrCreate_fresh h]

/-- Witness for C8 on the empty registry: the failing call leaves it empty
and errors; the retry constructs binding 0 and stores it. -/
theorem C8_witness :
    (⟨[], 0⟩ : Registry0.Registry).getOrCreate "0xAAA" true =
      (⟨[], 0⟩, .error .factoryFailed, 1) ∧
    ((⟨[], 0⟩ : Registry0.Registry).getOrCreate "0xAAA" false).2.1 = .ok 0 ∧
    ((⟨[], 0⟩ : Registry0.Registry).getOrCreate "0xAAA" false).2.2 = 1 ∧
    (((⟨[], 0⟩ : Registry0.Registry).getOrCreate "0xAAA" false).1).get "0xAAA" =
      some 0 :=
  C8_factory_failure_not_cached ⟨[], 0⟩ "0xAAA" (by decide)

/-- C4: a subscriber's ReloadSignal version starts at 0, increases by
exactly one on every UPDATE_DATA emission it observes (and only then —
subscribing, unsubscribing and non-emitting fetches leave it unchanged),
and never decreases over any sequence of operations. -/
theorem C4_reload_version_monotone (h : Nat) :
    Sys0.initSys.versions h = 0 ∧
    (∀ (s : Sys0.SysState) (resp : Binding0.FetchResponse),
      h ∈ s.chan.subs → (s.binding.fetch resp).2.2 = true →
      (Sys0.stepSys s (.doFetch resp)).versions h = s.versions h + 1) ∧
    (∀ (s : Sys0.SysState) (resp : Binding0.FetchResponse),
      (s.binding.fetch resp).2.2 = false →
      (Sys0.stepSys s (.doFetch resp)).versions h = s.versions h) ∧
    (∀ s : Sys0.SysState, (Sys0.stepSys s .sub).versions h = s.versions h) ∧
    (∀ (s : Sys0.SysState) (g : Nat),
      (Sys0.stepSys s (.unsub g)).versions h = s.versions h) ∧
    (∀ (s : Sys0.SysState) (ops : List Sys0.Op),
      s.versions h ≤ (Sys0.runTrace s ops).versions h) := by
  refine ⟨rfl, ?_, ?_, fun s => rfl, fun s g => rfl,
    fun s ops => Sys0.versions_mono_trace s ops h⟩
  · intro s resp hmem hemit
    simp [Sys0.stepSys, hemit, hmem]
  · intro s resp hemit
    simp [Sys0.stepSys, hemit]

/-- Witness for C4 at a concrete system: subscriber 0 observes one emitting
fetch and its version goes from 0 to 1. -/
theorem C4_witness :
    Sys0.initSys.versions 0 = 0 ∧
    (Sys0.stepSys ⟨⟨[0], 1⟩, ⟨[]⟩, fun _ => 0⟩
        (.doFetch ⟨true, [("x", some 3)]⟩)).versions 0 =
      (⟨⟨[0], 1⟩, ⟨[]⟩, fun _ => 0⟩ : Sys0.SysState).versions 0 + 1 :=
  ⟨(C4_reload_version_monotone 0).1,
   (C4_reload_version_monotone 0).2.1 ⟨⟨[0], 1⟩, ⟨[]⟩, fun _ => 0⟩
     ⟨true, [("x", some 3)]⟩ (by decide) rfl⟩

/-- C5: `unsubscribe` is idempotent — unsubscribing the same handle twice
yields the same channel state as doing it once — and unsubscribing a
handle that is not subscribed (already removed or never created) leaves
the channel unchanged; being a total function it never raises. -/
theorem C5_unsubscribe_idempotent (c : Channel0.Channel) (h : Nat) :
    (c.unsubscribe h).unsubscribe h = c.unsubscribe h ∧
    (h ∉ c.subs → c.unsubscribe h = c) := by
  constructor
  · simp only [Channel0.Channel.unsubscribe]
    congr 1
    exact List.filter_eq_self.mpr fun a ha => (List.mem_filter.mp ha).2
  · intro hmem
    have hs : c.subs.filter (fun x => x ≠ h) = c.subs :=
      List.filter_eq_self.mpr fun a ha => by
        simp only [ne_eq, decide_eq_true_eq]
        intro hah
        exact hmem (hah ▸ ha)
    simp only [Channel0.Channel.unsubscribe, hs]

/-- Witness for C5 at a concrete channel: double unsubscription of handle 0
equals a single one, and unsubscribing the unknown handle 5 is a no-op. -/
theorem C5_witness :
    ((⟨[0, 1], 2⟩ : Channel0.Channel).unsubscribe 0).unsubscribe 0 =
      (⟨[0, 1], 2⟩ : Channel0.Channel).unsubscribe 0 ∧
    (⟨[0, 1], 2⟩ : Channel0.Channel).unsubscribe 5 = ⟨[0, 1], 2⟩ :=
  ⟨(C5_unsubscribe_idempotent ⟨[0, 1], 2⟩ 0).1,
   (C5_unsubscribe_idempotent ⟨[0, 1], 2⟩ 5).2 (by decide)⟩

/-- C6: once a handle is unsubscribed, its handler is invoked by no
subsequent UPDATE_DATA emission — whatever later subscriptions,
unsubscriptions and fetch completions occur — while those in-flight
fetches still complete and update the shared cache exactly as they would
have with the subscription still in place. -/
theorem C6_no_invocation_after_unsubscribe (raises : Nat → Bool)
    (s : Sys0.SysState) (h : Nat) (hh : h < s.chan.nextHandle)
    (hbound : ∀ x ∈ s.chan.subs, x < s.chan.nextHandle) (ops : List Sys0.Op) :
    h ∉ Sys0.invokedTrace raises (Sys0.stepSys s (.unsub h)) ops ∧
    (Sys0.runTrace (Sys0.stepSys s (.unsub h)) ops).binding =
      (Sys0.runTrace s ops).binding := by
  have haway : Sys0.Away h (Sys0.stepSys s (.unsub h)) :=
    ⟨Channel0.unsubscribe_notMem s.chan h, hh,
     fun x hx => hbound x (Channel0.unsubscribe_subset hx)⟩
  exact ⟨Sys0.away_not_invokedTrace haway raises ops,
         Sys0.runTrace_binding_congr (s := Sys0.stepSys s (.unsub h)) (t := s) rfl ops⟩

/-- Witness for C6: subscriber 0 is unsubscribed, a successful fetch then
completes — it still updates the cache but handle 0 is not invoked. -/
theorem C6_witness :
    0 ∉ Sys0.invokedTrace (fun _ => false)
        (Sys0.stepSys ⟨⟨[0], 1⟩, ⟨[]⟩, fun _ => 0⟩ (.unsub 0))
        [.doFetch ⟨true, [("x", some 3)]⟩] ∧
    (Sys0.runTrace (Sys0.stepSys ⟨⟨[0], 1⟩, ⟨[]⟩, fun _ => 0⟩ (.unsub 0))
        [.doFetch ⟨true, [("x", some 3)]⟩]).binding =
      (Sys0.runTrace ⟨⟨[0], 1⟩, ⟨[]⟩, fun _ => 0⟩
        [.doFetch ⟨true, [("x", some 3)]⟩]).binding :=
  C6_no_invocation_after_unsubscribe (fun _ => false) ⟨⟨[0], 1⟩, ⟨[]⟩, fun _ => 0⟩ 0
    (by decide) (by decide) [.doFetch ⟨true, [("x", some 3)]⟩]

/-- C7: an emission's loop invokes every current subscriber's handler in
subscription order, and this invocation list is the full subscriber list
whatever set of handlers raises — a raising handler never prevents a
later-subscribed handler from running in the same emission. -/
theorem C7_emit_all_in_order (raises : Nat → Bool) (c : Channel0.Channel) :
    Channel0.emitLoop raises c.subs = c.subs :=
  Channel0.emitLoop_eq_subs raises c.subs

/-- C9: in the Simulate view's `onSubmit`, for every junior-dominance input
that parses to a number within the form's validated shape (fewer than 18
decimal places), the computed junior liquidity equals the dominance
divided by 100 and scaled by `10 ^ 18`, the senior liquidity equals the
junior liquidity minus 1 scaled by `10 ^ 18`, multiplied by −1, and the
two liquidities always add up to exactly `10 ^ 18`. -/
theorem C9_simulate_liquidity_split (d : ℚ)
    (hdp : ∃ n : ℤ, d = (n : ℚ) / 10 ^ 17) :
    Simulate0.juniorLiquidity d = d / 100 * 10 ^ 18 ∧
    Simulate0.seniorLiquidity (Simulate0.juniorLiquidity d) =
      (Simulate0.juniorLiquidity d - 1 * 10 ^ 18) * (-1) ∧
    Simulate0.juniorLiquidity d + Simulate0.seniorLiquidity (Simulate0.juniorLiquidity d) =
      10 ^ 18 := by
  obtain ⟨n, rfl⟩ := hdp
  refine ⟨?_, ?_, ?_⟩
  · simp [Simulate0.juniorLiquidity, Simulate0.scaleBy, Simulate0.SCALE_DECIMALS,
      Simulate0.bnDiv_exact_of_scale17]
  · simp [Simulate0.seniorLiquidity, Simulate0.scaleBy, Simulate0.SCALE_DECIMALS]
  · simp only [Simulate0.seniorLiquidity, Simulate0.scaleBy, Simulate0.SCALE_DECIMALS]
    ring

/-- Witness for C9 at junior dominance 25 percent: the junior liquidity is
a quarter of the scale and the two tranches sum to the scaled whole
pool. -/
theorem C9_witness :
    Simulate0.juniorLiquidity 25 = 25 / 100 * 10 ^ 18 ∧
    Simulate0.seniorLiquidity (Simulate0.juniorLiquidity 25) =
      (Simulate0.juniorLiquidity 25 - 1 * 10 ^ 18) * (-1) ∧
    Simulate0.juniorLiquidity 25 + Simulate0.seniorLiquidity (Simulate0.juniorLiquidity 25) =
      10 ^ 18 :=
  C9_simulate_liquidity_split 25 ⟨25 * 10 ^ 17, by norm_num⟩

/-- C10: the TokenAmount component renders the insufficient-balance warning
exactly when `Number(value) > Number(max)`; when the `max` prop is
undefined that comparison is against NaN, so the warning is never shown;
and the MAX button is rendered only when `max` is a finite number. -/
theorem C10_token_amount_warning :
    (∀ p : TokenAmount0.TokenAmountProps,
      TokenAmount0.showsInsufficientBalance p =
        TokenAmount0.jsGt p.value (TokenAmount0.numOfOpt p.max)) ∧
    TokenAmount0.numOfOpt (none : Option TokenAmount0.JsNum) = TokenAmount0.JsNum.nan ∧
    (∀ v : TokenAmount0.JsNum,
      TokenAmount0.showsInsufficientBalance ⟨v, none⟩ = false) ∧
    (∀ p : TokenAmount0.TokenAmountProps, TokenAmount0.showsMaxButton p = true →
      ∃ q : ℚ, p.max = some (TokenAmount0.JsNum.num q)) := by
  refine ⟨fun p => rfl, rfl, ?_, ?_⟩
  · intro v
    simpa [TokenAmount0.showsInsufficientBalance, TokenAmount0.numOfOpt]
      using TokenAmount0.jsGt_nan_right v
  · rintro ⟨v, m⟩ hp
    cases m with
    | none => simp [TokenAmount0.showsMaxButton] at hp
    | some x =>
      cases x with
      | num q => exact ⟨q, rfl⟩
      | nan => simp [TokenAmount0.showsMaxButton, TokenAmount0.jsIsFinite] at hp
      | posInf => simp [TokenAmount0.showsMaxButton, TokenAmount0.jsIsFinite] at hp
      | negInf => simp [TokenAmount0.showsMaxButton, TokenAmount0.jsIsFinite] at hp

/-- Witness for C10: with a defined finite max of 3 the MAX button shows,
and the theorem yields the finite shape of the prop. -/
theorem C10_witness :
    ∃ q : ℚ, (some (TokenAmount0.JsNum.num 3) : Option TokenAmount0.JsNum) =
      some (TokenAmount0.JsNum.num q) :=
  C10_token_amount_warning.2.2.2
    ⟨TokenAmount0.JsNum.num 5, some (TokenAmount0.JsNum.num 3)⟩ rfl
